import Mathlib

/-!
Verification development for the Galaxy front-end view modules:
the tool-execution form (mvc/tool/tool-form), the error-reporting modal
(mvc/ui/error-modal), and the two toolshed browsing views
(mvc/toolshed/workflows-view, mvc/toolshed/categories-view).

The JavaScript sources are shallowly embedded: each relevant function is
translated to a total Lean definition over explicit data types.  JavaScript
objects indexed by dynamic keys become association lists or functions into
Option types; JavaScript truthiness of strings (the empty string is falsy)
is made explicit via truthyStr; DOM and network side effects become values
of an explicit Effect type, so that a handler is modelled as the list of
effects it performs, in order.
-/

/-- Truthiness of an optional JavaScript string value: undefined, null and
the empty string are falsy; a non-empty string is truthy and denotes itself. -/
def truthyStr : Option String → Option String
  | none => none
  | some s => if s = "" then none else some s

/-- One entry of the values array of a batch-mode parameter value.
In the source each entry is a JavaScript object whose src property names the
input source kind (for example hda or hdca); an entry may also be null or
lack a src.  The outer Option models a null entry. -/
structure BatchItem where
  src : Option String
deriving DecidableEq

/-- The src kind read by validate from a batch value: the source computes
d greater than zero, then values[0], then values[0].src, all under
JavaScript truthiness.  Returns none when any link of that chain is falsy. -/
def srcOf : List (Option BatchItem) → Option String
  | [] => none
  | none :: _ => none
  | some it :: _ => truthyStr it.src

/-- A submitted parameter value as inspected by validate: null or undefined
(vnull, the source tests with a loose null equality that covers both),
an object with a truthy batch property carrying a values array, or any
other value (scalar, with its own truthiness recorded). -/
inductive Value where
  | vnull
  | batch (values : List (Option BatchItem))
  | scalar (truthy : Bool)
deriving DecidableEq

/-- True exactly on the values the loose null test of the source accepts. -/
def isNull : Value → Bool
  | Value.vnull => true
  | _ => false

/-- The input object looked up in form.input_list; validate only reads its
optional flag. -/
structure InputDef where
  optional : Bool
deriving DecidableEq

/-- The pieces of the surrounding form object that validate consults:
form.data.match resolving an input name to a field id (none when the lookup
yields nothing), the field widget table form.field_list (presence recorded
as a Bool) and the input table form.input_list. -/
structure FormModel where
  matchName : String → Option String
  field_list : String → Bool
  input_list : String → Option InputDef

/-- A name resolves when form.data.match gives a truthy id r and both
input_list[r] and field_list[r] are truthy, mirroring the conjunction
r and n and s of the source. -/
def isResolvedField (form : FormModel) (a : String) : Bool :=
  match truthyStr (form.matchName a) with
  | none => false
  | some r => (form.input_list r).isSome && form.field_list r

/-- A name resolves to a known input object marked non-optional. -/
def resolvesRequired (form : FormModel) (a : String) : Bool :=
  match truthyStr (form.matchName a) with
  | none => false
  | some r =>
    match form.input_list r with
    | none => false
    | some n => form.field_list r && !n.optional

/-- The two user-facing messages validate can attach to a highlighted field,
kept structured; msgText renders the exact strings built by the source. -/
inductive HighlightMsg where
  | srcMismatch
  | countMismatch (d oc : Nat)
deriving DecidableEq

/-- The literal message strings of the source; countMismatch interpolates the
current and the previously recorded selection counts. -/
def msgText : HighlightMsg → String
  | HighlightMsg.srcMismatch =>
      "Please select either dataset or dataset list fields for all batch mode fields."
  | HighlightMsg.countMismatch d oc =>
      "Please make sure that you select the same number of inputs for all batch mode fields. This field contains <b>" ++ toString d ++ "</b> selection(s) while a previous field contains <b>" ++ toString oc ++ "</b>."

/-- Outcome of checking a single field inside the validate loop: either the
loop continues with updated accumulators (o, the recorded selection count,
none standing for the initial -1; i, the recorded src kind, none standing
for the initial null), or validate returns false after highlighting a field
with an optional message. -/
inductive StepRes where
  | cont (o : Option Nat) (i : Option String)
  | fail (field : String) (msg : Option HighlightMsg)
deriving DecidableEq

/-- Result of validate: true, or false together with the field highlighted on
the way out and the message passed to form.highlight. -/
inductive ValidateResult where
  | ok
  | fail (field : String) (msg : Option HighlightMsg)
deriving DecidableEq

/-- The count comparison at the end of the batch branch: the first batch field
records its count (o set from -1), later ones must match it. -/
def batchCheckCount (r : String) (d : Nat) (o : Option Nat) (i2 : Option String) : StepRes :=
  match o with
  | none => StepRes.cont (some d) i2
  | some oc =>
      if oc ≠ d then StepRes.fail r (some (HighlightMsg.countMismatch d oc))
      else StepRes.cont o i2

/-- The batch branch of validate for one field: the src comparison runs first
(only when the src chain is truthy), then the count comparison. -/
def batchCheck (r : String) (vs : List (Option BatchItem)) (o : Option Nat)
    (i : Option String) : StepRes :=
  match srcOf vs, i with
  | some us, some ic =>
      if ic ≠ us then StepRes.fail r (some HighlightMsg.srcMismatch)
      else batchCheckCount r vs.length o (some ic)
  | some us, none => batchCheckCount r vs.length o (some us)
  | none, _ => batchCheckCount r vs.length o i

/-- The body of the validate loop for a resolved field: the required-presence
check, then the batch branch for batch values; all other values pass. -/
def resolvedCheck (r : String) (n : InputDef) (l : Value) (o : Option Nat)
    (i : Option String) : StepRes :=
  if !n.optional && isNull l then StepRes.fail r none
  else
    match l with
    | Value.batch vs => batchCheck r vs o i
    | _ => StepRes.cont o i

/-- One iteration of the validate loop: unresolved names only produce a debug
log (not tracked here, it carries no control flow) and the loop continues. -/
def checkField (form : FormModel) (a : String) (l : Value) (o : Option Nat)
    (i : Option String) : StepRes :=
  match truthyStr (form.matchName a) with
  | none => StepRes.cont o i
  | some r =>
    match form.input_list r with
    | none => StepRes.cont o i
    | some n =>
      if form.field_list r then resolvedCheck r n l o i
      else StepRes.cont o i

/-- The validate loop over the request inputs in their key order, threading
the two accumulators. -/
def validateAux (form : FormModel) : List (String × Value) → Option Nat → Option String → ValidateResult
  | [], _, _ => ValidateResult.ok
  | (a, l) :: rest, o, i =>
    match checkField form a l o i with
    | StepRes.fail r m => ValidateResult.fail r m
    | StepRes.cont o2 i2 => validateAux form rest o2 i2

/-- The job request assembled by submit and passed to validate: tool id,
tool version and the created inputs dictionary (modelled as an ordered
association list, matching for-in enumeration order). -/
structure SubmitRequest where
  tool_id : String
  tool_version : Option String
  inputs : List (String × Value)
deriving DecidableEq

/-- validate of tool-form: checks the request inputs as above, starting with
count -1 and src null. -/
def validate (form : FormModel) (e : SubmitRequest) : ValidateResult :=
  validateAux form e.inputs none none

/-- A form whose names all resolve to required inputs, used for concrete runs. -/
def exForm : FormModel :=
  { matchName := fun a => some a
    field_list := fun _ => true
    input_list := fun _ => some { optional := false } }

/-- A batch entry with src hda (a dataset). -/
def hdaItem : Option BatchItem := some { src := some "hda" }

/-- A batch entry with src hdca (a dataset list). -/
def hdcaItem : Option BatchItem := some { src := some "hdca" }

def isCountMsg : HighlightMsg → Bool
  | HighlightMsg.countMismatch _ _ => true
  | _ => false

def isSrcMsg : HighlightMsg → Bool
  | HighlightMsg.srcMismatch => true
  | _ => false

def exReqA : SubmitRequest :=
  { tool_id := "t", tool_version := none,
    inputs := [("a", Value.batch [hdaItem]),
               ("b", Value.batch [hdaItem, hdaItem]),
               ("c", Value.vnull)] }

def exReqB : SubmitRequest :=
  { tool_id := "t", tool_version := none,
    inputs := [("a", Value.batch [hdaItem]),
               ("b", Value.batch [hdcaItem, hdcaItem])] }

def exReqC : SubmitRequest :=
  { tool_id := "t", tool_version := none,
    inputs := [("a", Value.batch [hdaItem]),
               ("b", Value.batch [hdaItem, hdaItem]),
               ("c", Value.batch [hdcaItem])] }

def exReqD : SubmitRequest :=
  { tool_id := "t", tool_version := none, inputs := [("c", Value.vnull)] }

def exReqE : SubmitRequest :=
  { tool_id := "t", tool_version := none,
    inputs := [("a", Value.batch [hdaItem]),
               ("b", Value.batch [hdaItem, hdaItem])] }

def exReqF : SubmitRequest :=
  { tool_id := "t", tool_version := none,
    inputs := [("a", Value.batch [hdaItem]),
               ("b", Value.batch [hdcaItem])] }

/-- A primitive JavaScript value as it appears in the untyped objects the
error-modal module inspects (xhr objects, user records, telemetry fields);
vfun marks a function-valued property. -/
inductive JsVal where
  | vstr (s : String)
  | vnum (n : Int)
  | vbool (b : Bool)
  | vnull
  | vundefined
  | vfun
deriving DecidableEq

/-- The predicate underscore.functions uses to collect property names. -/
def isFunctionVal : JsVal → Bool
  | JsVal.vfun => true
  | _ => false

/-- underscore.omit with a single key: drops every property with that name. -/
def omitKey (k : String) (o : List (String × JsVal)) : List (String × JsVal) :=
  o.filter (fun p => p.1 != k)

/-- underscore.functions: the names of the function-valued properties. -/
def functionKeys (o : List (String × JsVal)) : List String :=
  (o.filter (fun p => isFunctionVal p.2)).map Prod.fst

/-- underscore.omit with a list of keys. -/
def omitKeys (ks : List String) (o : List (String × JsVal)) : List (String × JsVal) :=
  o.filter (fun p => !(ks.contains p.1))

/-- The pieces of global browser and application state the telemetry assembly
reads: Raven.lastEventId, navigator.userAgent, navigator.onLine,
Galaxy.config.version_major, Galaxy.lastAjax url and data, and the JSON form
of Galaxy.user. -/
structure GalaxyEnv where
  ravenLastEventId : Option String
  userAgent : String
  onLine : Bool
  versionMajor : Option String
  lastAjaxUrl : Option String
  lastAjaxData : Option JsVal
  userJson : List (String × JsVal)
deriving DecidableEq

/-- The telemetry payload assembled by the internal details builder of
error-modal (function r in the minified source). -/
structure AjaxDetails where
  raven : Option String
  userAgent : String
  onLine : Bool
  version : Option String
  xhr : List (String × JsVal)
  options : List (String × JsVal)
  url : Option String
  data : Option JsVal
  model : JsVal
  user : List (String × JsVal)
deriving DecidableEq

/-- The details builder: the xhr is included with its function-valued
properties omitted, the options lose their xhr property, and the serialized
user record loses its email property. -/
def ajaxDetails (env : GalaxyEnv) (mdl : JsVal)
    (xhr options : List (String × JsVal)) : AjaxDetails :=
  { raven := env.ravenLastEventId
    userAgent := env.userAgent
    onLine := env.onLine
    version := env.versionMajor
    xhr := omitKeys (functionKeys xhr) xhr
    options := omitKey "xhr" options
    url := env.lastAjaxUrl
    data := env.lastAjaxData
    model := mdl
    user := omitKey "email" env.userJson }

/-- The optional details argument of errorModal: either an arbitrary value
(rendered with JSON.stringify into the Details section) or the assembled
telemetry payload passed by ajaxErrorModal. -/
inductive ErrorDetails where
  | raw (v : JsVal)
  | ajax (d : AjaxDetails)
deriving DecidableEq

/-- The localization function from utils/localization; external to this
repository and modelled as the identity (it returns its argument when no
translation applies and never affects control flow here). -/
def localize (s : String) : String := s

/-- The modal dialog built by the internal show helper (function t in the
minified source): title, body, and the Details section holding the stringified
details when they were supplied. -/
structure ModalDisplay where
  title : String
  body : String
  errorDetails : Option ErrorDetails
deriving DecidableEq

/-- The observable outcome of errorModal: nothing, a modal dialog, or a
browser alert (which also logs the stringified details to the console). -/
inductive ErrorDisplay where
  | noDisplay
  | modalShown (m : ModalDisplay)
  | alertShown (text : String) (loggedDetails : Option ErrorDetails)
deriving DecidableEq

/-- The internal modal helper of error-modal: shows the Galaxy modal with an
Ok button and, when details are supplied, appends the hidden Details section
with the JSON dump and a Details toggle button. -/
def showErrorModal (body title : String) (details : Option ErrorDetails) : ErrorDisplay :=
  ErrorDisplay.modalShown { title := title, body := body, errorDetails := details }

/-- errorModal (function o in the minified source): a falsy message does
nothing; otherwise the message and title are localized, the title defaults to
Error:, and the error is shown in the global modal when window.Galaxy with
Galaxy.modal is available, else via alert of title and message. -/
def errorModal (modalAvailable : Bool) (message title : String)
    (details : Option ErrorDetails) : ErrorDisplay :=
  if message = "" then ErrorDisplay.noDisplay
  else
    let m := localize message
    let t := if localize title = "" then localize "Error:" else localize title
    if modalAvailable then showErrorModal m t details
    else ErrorDisplay.alertShown (t ++ "\n\n" ++ m) details

/-- The module-level localized string n of the source. -/
def pleaseContactMsg : String :=
  localize "Please contact a Galaxy administrator if the problem persists."

/-- The module-level localized string i of the source, the default
ajaxErrorModal message. -/
def serverUpdateErrorMsg : String :=
  localize "An error occurred while updating information with the server."

/-- ajaxErrorModal: defaults the message and title, appends the
please-contact suffix, assembles the telemetry details and delegates to
errorModal. -/
def ajaxErrorModal (modalAvailable : Bool) (env : GalaxyEnv) (mdl : JsVal)
    (xhr options : List (String × JsVal)) (message title : Option String) :
    ErrorDisplay :=
  let d := (truthyStr message).getD serverUpdateErrorMsg
  let u := (truthyStr title).getD (localize "An error occurred")
  errorModal modalAvailable (d ++ " " ++ pleaseContactMsg) u
    (some (ErrorDetails.ajax (ajaxDetails env mdl xhr options)))

def exEnv : GalaxyEnv :=
  { ravenLastEventId := none
    userAgent := "ua"
    onLine := true
    versionMajor := some "20.01"
    lastAjaxUrl := some "api/tools"
    lastAjaxData := none
    userJson := [("email", JsVal.vstr "u@example.org"), ("id", JsVal.vnum 7)] }

def exXhr : List (String × JsVal) :=
  [("status", JsVal.vnum 200), ("always", JsVal.vfun)]

def exOptions : List (String × JsVal) :=
  [("xhr", JsVal.vfun), ("type", JsVal.vstr "POST")]

/-- The tool model attributes read by buildmodel and submit: id, version,
job_id (for reruns) and the form action triple. -/
structure ToolAttrs where
  id : String
  version : Option String
  job_id : Option String
  action : String
  method : String
  enctype : String
deriving DecidableEq

/-- Body of a modal dialog raised by the tool-form view: plain text, or the
_templateError rendering, which shows a fixed sentence plus the optional
server message and a pre element with the JSON.stringify dump of the submitted
request (the dump is carried structurally here). -/
inductive ModalBody where
  | text (s : String)
  | errorTemplate (dump : SubmitRequest) (extra : String)
deriving DecidableEq

/-- The _templateError helper applied to the submitted request and the
optional server err_msg (a falsy message contributes the empty string). -/
def templateError (req : SubmitRequest) (msg : Option String) : ModalBody :=
  ModalBody.errorTemplate req
    ("The server could not complete the request. Please contact the Galaxy Team if this error persists. "
      ++ msg.getD "")

/-- One observable action performed by a view function or callback, listed in
execution order. -/
inductive Effect where
  | httpRequest (method url : String)
  | formElementSubmit (action method enctype : String)
  | redirect (url : String)
  | showModal (title : String) (body : ModalBody)
  | errorModalShown (m : ModalDisplay)
  | browserAlert (text : String)
  | highlight (field : String) (msg : Option HighlightMsg)
  | highlightResponse (field : String) (value : JsVal)
  | inlineMessage (status text : String)
  | debugLog (tag text : String)
  | callbackInvoked
  | formReset
  | deferredRejected
deriving DecidableEq

/-- jQuery.param over an object with string values, without percent-encoding
(encoding does not matter to any property proved here). -/
def paramString (ps : List (String × String)) : String :=
  String.intercalate "&" (ps.map (fun p => p.1 ++ "=" ++ p.2))

/-- Property read on a parameters object. -/
def lookupParam (ps : List (String × String)) (k : String) : Option String :=
  (ps.find? (fun p => p.1 == k)).map Prod.snd

/-- The JavaScript delete operator on a parameters object. -/
def deleteParam (ps : List (String × String)) (k : String) : List (String × String) :=
  ps.filter (fun p => p.1 != k)

/-- Property assignment on a parameters object: replaces the value in place or
appends the property. -/
def setParam : List (String × String) → String → String → List (String × String)
  | [], k, v => [(k, v)]
  | (k2, v2) :: rest, k, v =>
      if k2 = k then (k, v) :: rest else (k2, v2) :: setParam rest k v

/-- The url variable a of buildmodel: the rerun endpoint when the model
attributes carry a truthy job_id, else the build endpoint. -/
def buildModelUrl (galaxyRoot : String) (attrs : ToolAttrs) : String :=
  match truthyStr attrs.job_id with
  | some j => galaxyRoot ++ "api/jobs/" ++ j ++ "/build_for_rerun"
  | none => galaxyRoot ++ "api/tools/" ++ attrs.id ++ "/build"

/-- The data variable l of buildmodel: empty for a rerun; otherwise a copy of
Galaxy.params whose tool_id property is deleted when truthy; in both branches
tool_version is then set when the model version is truthy. -/
def buildModelData (attrs : ToolAttrs) (galaxyParams : List (String × String)) :
    List (String × String) :=
  let l :=
    match truthyStr attrs.job_id with
    | some _ => []
    | none =>
      match truthyStr (lookupParam galaxyParams "tool_id") with
      | some _ => deleteParam galaxyParams "tool_id"
      | none => galaxyParams
  match truthyStr attrs.version with
  | some v => setParam l "tool_version" v
  | none => l

/-- The request target buildmodel passes to the GET utility. -/
structure BuildTarget where
  url : String
  data : List (String × String)
deriving DecidableEq

/-- The fetch performed by buildmodel: url and query data. -/
def buildModelRequest (galaxyRoot : String) (attrs : ToolAttrs)
    (galaxyParams : List (String × String)) : BuildTarget :=
  { url := buildModelUrl galaxyRoot attrs, data := buildModelData attrs galaxyParams }

/-- The buildmodel error callback: a 401 redirects to login with a redirect
parameter back to the tool; otherwise an empty container gets an inline danger
message, else (when the global modal exists) a Tool request failed modal; in
every case a debug log is emitted and the deferred is rejected. -/
def buildModelErrorHandler (galaxyRoot toolId : String) (respErrMsg : Option String)
    (status : Nat) (elEmpty modalAvail : Bool) : List Effect :=
  let l := (truthyStr respErrMsg).getD "Uncaught error."
  (if status == 401 then
    [Effect.redirect (galaxyRoot ++ "user/login?" ++
      paramString [("redirect", galaxyRoot ++ "?tool_id=" ++ toolId)])]
  else if elEmpty then
    [Effect.inlineMessage "danger" l]
  else if modalAvail then
    [Effect.showModal "Tool request failed" (ModalBody.text l)]
  else [])
  ++ [Effect.debugLog "tool-form-base::_buildModel()" "Initial tool model request failed.",
      Effect.deferredRejected]

/-- The postchange error callback: only a debug log and a rejected deferred. -/
def postchangeErrorHandler : List Effect :=
  [Effect.debugLog "tool-form::postchange()" "Refresh request failed.",
   Effect.deferredRejected]

/-- The fields of a failed job-submission response that the submit error
callback reads. -/
structure ErrResponse where
  err_data : Option (List (String × JsVal))
  err_msg : Option String
deriving DecidableEq

/-- The submit error callback: invokes the completion callback, logs, then
either highlights the first field matched from err_data by
form.data.matchResponse (and shows no modal), or shows the Job submission
failed modal whose body is _templateError of the submitted request.
matchResponse belongs to the form base class outside this repository and is
taken as a parameter. -/
def submitErrorHandler (hasCallback : Bool) (req : SubmitRequest)
    (matchResponse : List (String × JsVal) → List (String × JsVal))
    (resp : Option ErrResponse) : List Effect :=
  (if hasCallback then [Effect.callbackInvoked] else [])
  ++ [Effect.debugLog "tool-form::submit" "Submission failed."]
  ++ match resp with
     | none => [Effect.showModal "Job submission failed" (templateError req none)]
     | some e =>
       match e.err_data with
       | none => [Effect.showModal "Job submission failed" (templateError req e.err_msg)]
       | some ed =>
         match matchResponse ed with
         | [] => [Effect.showModal "Job submission failed" (templateError req e.err_msg)]
         | (r, v) :: _ => [Effect.highlightResponse r v]

/-- The toolshed views (workflows-view and categories-view) pass only success
callbacks to the jQuery get and post helpers: a failed toolshed request
triggers no handler at all, hence the empty effect list. -/
def toolshedRequestErrorEffects : List Effect := []

/-- The request object i assembled at the top of submit from the tool
attributes and the created inputs. -/
def submitRequestOf (attrs : ToolAttrs) (inputs : List (String × Value)) :
    SubmitRequest :=
  { tool_id := attrs.id, tool_version := attrs.version, inputs := inputs }

/-- The submit function of tool-form up to the asynchronous response: after
the form reset it validates; on failure it highlights, logs, and invokes the
completion callback; on success it either submits a transient form element
(non-default action) or issues the POST to api/tools. -/
def submit (form : FormModel) (galaxyRoot : String) (attrs : ToolAttrs)
    (inputs : List (String × Value)) (hasCallback : Bool) : List Effect :=
  [Effect.formReset] ++
  match validate form (submitRequestOf attrs inputs) with
  | ValidateResult.fail r m =>
      [Effect.highlight r m,
       Effect.debugLog "tool-form::submit()" "Submission canceled. Validation failed."]
      ++ (if hasCallback then [Effect.callbackInvoked] else [])
  | ValidateResult.ok =>
      if attrs.action != galaxyRoot ++ "tool_runner/index" then
        [Effect.formElementSubmit attrs.action attrs.method attrs.enctype]
        ++ (if hasCallback then [Effect.callbackInvoked] else [])
      else
        [Effect.debugLog "tool-form::submit()" "Validation complete.",
         Effect.httpRequest "POST" (galaxyRoot ++ "api/tools")]

/-- The effects of an errorModal outcome. -/
def displayEffects : ErrorDisplay → List Effect
  | ErrorDisplay.noDisplay => []
  | ErrorDisplay.modalShown m => [Effect.errorModalShown m]
  | ErrorDisplay.alertShown s _ => [Effect.browserAlert s]

/-- True on the effects that issue a request: an AJAX call or a form-element
submission.  A redirect navigates to a different page (the login screen) and
re-issues nothing. -/
def effectIsRequest : Effect → Bool
  | Effect.httpRequest _ _ => true
  | Effect.formElementSubmit _ _ _ => true
  | _ => false

/-- True on the effects that display a modal dialog. -/
def effectIsModal : Effect → Bool
  | Effect.showModal _ _ => true
  | Effect.errorModalShown _ => true
  | _ => false

/-- A trace containing no request-issuing effect. -/
def noRequestEffects (l : List Effect) : Bool :=
  l.all (fun x => !effectIsRequest x)

def exMatchResp : List (String × JsVal) → List (String × JsVal) := fun ed => ed

def exErrData : List (String × JsVal) := [("f1", JsVal.vstr "bad value")]

def exErr : ErrResponse := { err_data := some exErrData, err_msg := some "oops" }

def exErrNoData : ErrResponse := { err_data := none, err_msg := none }

def exAttrsJobEmpty : ToolAttrs :=
  { id := "cat1", version := none, job_id := some "",
    action := "/tool_runner/index", method := "post",
    enctype := "application/x-www-form-urlencoded" }

def exAttrsRerun : ToolAttrs :=
  { id := "cat1", version := some "1.0", job_id := some "j7",
    action := "/tool_runner/index", method := "post",
    enctype := "application/x-www-form-urlencoded" }

def exAttrsBuild : ToolAttrs :=
  { id := "cat1", version := some "1.0", job_id := none,
    action := "/tool_runner/index", method := "post",
    enctype := "application/x-www-form-urlencoded" }

example :
    validate exForm { tool_id := "t", tool_version := none,
                      inputs := [("a", Value.batch [hdaItem]), ("b", Value.vnull)] }
      = ValidateResult.fail "b" none := by decide

example :
    validate exForm { tool_id := "t", tool_version := none,
                      inputs := [("a", Value.batch [hdaItem]),
                                 ("b", Value.batch [hdaItem, hdaItem]),
                                 ("c", Value.vnull)] }
      = ValidateResult.fail "b" (some (HighlightMsg.countMismatch 2 1)) := by decide

example :
    validate exForm { tool_id := "t", tool_version := none,
                      inputs := [("a", Value.batch [hdaItem]),
                                 ("b", Value.batch [hdcaItem, hdcaItem])] }
      = ValidateResult.fail "b" (some HighlightMsg.srcMismatch) := by decide

example :
    validate exForm { tool_id := "t", tool_version := none,
                      inputs := [("a", Value.batch [hdaItem]),
                                 ("b", Value.batch [hdaItem])] }
      = ValidateResult.ok := by decide

theorem batchCheckCount_cont (r : String) (d : Nat) (o : Option Nat) (i2 : Option String)
    (o2 : Option Nat) (i3 : Option String)
    (h : batchCheckCount r d o i2 = StepRes.cont o2 i3) :
    o2 = some d ∧ i3 = i2 ∧ ∀ oc, o = some oc → oc = d := by
  cases o with
  | none =>
    simp [batchCheckCount] at h
    exact ⟨h.1.symm, h.2.symm, by intro oc hoc; cases hoc⟩
  | some oc =>
    by_cases hoc : oc = d
    · subst hoc
      simp [batchCheckCount] at h
      exact ⟨h.1.symm, h.2.symm, by intro oc2 hoc2; cases hoc2; rfl⟩
    · simp [batchCheckCount, hoc] at h

theorem batchCheckCount_fail (r : String) (d : Nat) (o : Option Nat) (i2 : Option String)
    (r2 : String) (m : Option HighlightMsg)
    (h : batchCheckCount r d o i2 = StepRes.fail r2 m) :
    r2 = r ∧ ∃ oc, o = some oc ∧ oc ≠ d ∧ m = some (HighlightMsg.countMismatch d oc) := by
  cases o with
  | none => simp [batchCheckCount] at h
  | some oc =>
    by_cases hoc : oc = d
    · simp [batchCheckCount, hoc] at h
    · simp [batchCheckCount, hoc] at h
      exact ⟨h.1.symm, oc, rfl, hoc, h.2.symm⟩

theorem batchCheck_cont (r : String) (vs : List (Option BatchItem)) (o : Option Nat)
    (i : Option String) (o2 : Option Nat) (i2 : Option String)
    (h : batchCheck r vs o i = StepRes.cont o2 i2) :
    o2 = some vs.length ∧ (∀ oc, o = some oc → oc = vs.length) ∧
      (∀ us, srcOf vs = some us → i2 = some us ∧ ∀ ic, i = some ic → ic = us) ∧
      (srcOf vs = none → i2 = i) := by
  unfold batchCheck at h
  cases hs : srcOf vs with
  | none =>
    rw [hs] at h
    obtain ⟨h1, h2, h3⟩ := batchCheckCount_cont _ _ _ _ _ _ h
    refine ⟨h1, h3, ?_, fun _ => h2⟩
    intro us hus
    cases hus
  | some us =>
    rw [hs] at h
    cases i with
    | none =>
      obtain ⟨h1, h2, h3⟩ := batchCheckCount_cont _ _ _ _ _ _ h
      refine ⟨h1, h3, ?_, ?_⟩
      · intro us2 hus2
        cases hus2
        exact ⟨h2, fun ic hic => by cases hic⟩
      · intro hn; cases hn
    | some ic =>
      by_cases hic : ic = us
      · subst hic
        have hb : batchCheckCount r vs.length o (some ic) = StepRes.cont o2 i2 := by
          simpa using h
        obtain ⟨h1, h2, h3⟩ := batchCheckCount_cont _ _ _ _ _ _ hb
        refine ⟨h1, h3, ?_, ?_⟩
        · intro us2 hus2
          cases hus2
          exact ⟨h2, fun ic2 hic2 => by cases hic2; rfl⟩
        · intro hn; cases hn
      · have h2 : (if ic ≠ us then StepRes.fail r (some HighlightMsg.srcMismatch)
            else batchCheckCount r vs.length o (some ic)) = StepRes.cont o2 i2 := h
        rw [if_pos hic] at h2
        simp at h2

theorem batchCheck_fail (r : String) (vs : List (Option BatchItem)) (o : Option Nat)
    (i : Option String) (r2 : String) (m : Option HighlightMsg)
    (h : batchCheck r vs o i = StepRes.fail r2 m) :
    r2 = r ∧
      ((m = some HighlightMsg.srcMismatch ∧
          ∃ us ic, srcOf vs = some us ∧ i = some ic ∧ ic ≠ us) ∨
        (∃ oc, o = some oc ∧ oc ≠ vs.length ∧
          m = some (HighlightMsg.countMismatch vs.length oc))) := by
  unfold batchCheck at h
  cases hs : srcOf vs with
  | none =>
    rw [hs] at h
    obtain ⟨h1, oc, h2, h3, h4⟩ := batchCheckCount_fail _ _ _ _ _ _ h
    exact ⟨h1, Or.inr ⟨oc, h2, h3, h4⟩⟩
  | some us =>
    rw [hs] at h
    cases i with
    | none =>
      obtain ⟨h1, oc, h2, h3, h4⟩ := batchCheckCount_fail _ _ _ _ _ _ h
      exact ⟨h1, Or.inr ⟨oc, h2, h3, h4⟩⟩
    | some ic =>
      by_cases hic : ic = us
      · subst hic
        have hb : batchCheckCount r vs.length o (some ic) = StepRes.fail r2 m := by
          simpa using h
        obtain ⟨h1, oc, h2, h3, h4⟩ := batchCheckCount_fail _ _ _ _ _ _ hb
        exact ⟨h1, Or.inr ⟨oc, h2, h3, h4⟩⟩
      · have h2 : (if ic ≠ us then StepRes.fail r (some HighlightMsg.srcMismatch)
            else batchCheckCount r vs.length o (some ic)) = StepRes.fail r2 m := h
        rw [if_pos hic] at h2
        injection h2 with e1 e2
        subst e1
        subst e2
        exact ⟨rfl, Or.inl ⟨rfl, us, ic, rfl, rfl, hic⟩⟩

theorem resolvedCheck_cont (r : String) (n : InputDef) (l : Value) (o : Option Nat)
    (i : Option String) (o2 : Option Nat) (i2 : Option String)
    (h : resolvedCheck r n l o i = StepRes.cont o2 i2) :
    (o2 = o ∧ i2 = i ∧ ∀ vs, l ≠ Value.batch vs) ∨
      (∃ vs, l = Value.batch vs ∧ batchCheck r vs o i = StepRes.cont o2 i2) := by
  unfold resolvedCheck at h
  by_cases hc : (!n.optional && isNull l) = true
  · rw [if_pos hc] at h
    simp at h
  · rw [if_neg hc] at h
    cases l with
    | vnull =>
      simp at h
      exact Or.inl ⟨h.1.symm, h.2.symm, fun vs hvs => by cases hvs⟩
    | batch vs => exact Or.inr ⟨vs, rfl, h⟩
    | scalar b =>
      simp at h
      exact Or.inl ⟨h.1.symm, h.2.symm, fun vs hvs => by cases hvs⟩

theorem resolvedCheck_fail (r : String) (n : InputDef) (l : Value) (o : Option Nat)
    (i : Option String) (r2 : String) (m : Option HighlightMsg)
    (h : resolvedCheck r n l o i = StepRes.fail r2 m) :
    r2 = r ∧
      ((m = none ∧ n.optional = false ∧ isNull l = true) ∨
        (∃ vs, l = Value.batch vs ∧ batchCheck r vs o i = StepRes.fail r2 m)) := by
  unfold resolvedCheck at h
  by_cases hc : (!n.optional && isNull l) = true
  · rw [if_pos hc] at h
    injection h with e1 e2
    simp at hc
    exact ⟨e1.symm, Or.inl ⟨e2.symm, hc.1, hc.2⟩⟩
  · rw [if_neg hc] at h
    cases l with
    | vnull => simp at h
    | batch vs =>
      obtain ⟨h1, _⟩ := batchCheck_fail _ _ _ _ _ _ h
      exact ⟨h1, Or.inr ⟨vs, rfl, h⟩⟩
    | scalar b => simp at h

theorem checkField_resolved (form : FormModel) (a : String) (l : Value) (o : Option Nat)
    (i : Option String) (r : String) (n : InputDef)
    (hr : truthyStr (form.matchName a) = some r) (hn : form.input_list r = some n)
    (hf : form.field_list r = true) :
    checkField form a l o i = resolvedCheck r n l o i := by
  simp [checkField, hr, hn, hf]

theorem checkField_unresolved (form : FormModel) (a : String) (l : Value) (o : Option Nat)
    (i : Option String) (hres : isResolvedField form a = false) :
    checkField form a l o i = StepRes.cont o i := by
  unfold isResolvedField at hres
  cases hm : truthyStr (form.matchName a) with
  | none => simp [checkField, hm]
  | some r =>
    rw [hm] at hres
    have hres2 : ((form.input_list r).isSome && form.field_list r) = false := hres
    cases hn : form.input_list r with
    | none => simp [checkField, hm, hn]
    | some n =>
      rw [hn] at hres2
      simp at hres2
      simp [checkField, hm, hn, hres2]

theorem isResolvedField_elim (form : FormModel) (a : String)
    (hres : isResolvedField form a = true) :
    ∃ r n, truthyStr (form.matchName a) = some r ∧ form.input_list r = some n ∧
      form.field_list r = true := by
  unfold isResolvedField at hres
  cases hm : truthyStr (form.matchName a) with
  | none => rw [hm] at hres; cases hres
  | some r =>
    rw [hm] at hres
    have hres2 : ((form.input_list r).isSome && form.field_list r) = true := hres
    cases hn : form.input_list r with
    | none => rw [hn] at hres2; simp at hres2
    | some n =>
      rw [hn] at hres2
      simp at hres2
      exact ⟨r, n, rfl, hn, hres2⟩

theorem checkField_cont_main (form : FormModel) (a : String) (l : Value) (o : Option Nat)
    (i : Option String) (o2 : Option Nat) (i2 : Option String)
    (h : checkField form a l o i = StepRes.cont o2 i2) :
    (o2 = o ∧ i2 = i) ∨
      (isResolvedField form a = true ∧ ∃ vs, l = Value.batch vs ∧
        o2 = some vs.length ∧ (∀ oc, o = some oc → oc = vs.length) ∧
        (∀ us, srcOf vs = some us → i2 = some us ∧ ∀ ic, i = some ic → ic = us) ∧
        (srcOf vs = none → i2 = i)) := by
  cases hres : isResolvedField form a with
  | false =>
    rw [checkField_unresolved form a l o i hres] at h
    injection h with e1 e2
    exact Or.inl ⟨e1.symm, e2.symm⟩
  | true =>
    obtain ⟨r, n, hr, hn, hf⟩ := isResolvedField_elim form a hres
    rw [checkField_resolved form a l o i r n hr hn hf] at h
    rcases resolvedCheck_cont _ _ _ _ _ _ _ h with ⟨e1, e2, _⟩ | ⟨vs, hvs, hb⟩
    · exact Or.inl ⟨e1, e2⟩
    · obtain ⟨h1, h2, h3, h4⟩ := batchCheck_cont _ _ _ _ _ _ hb
      exact Or.inr ⟨rfl, vs, hvs, h1, h2, h3, h4⟩

theorem checkField_cont_batch (form : FormModel) (a : String)
    (vs : List (Option BatchItem)) (o : Option Nat) (i : Option String) (o2 : Option Nat)
    (i2 : Option String) (hres : isResolvedField form a = true)
    (h : checkField form a (Value.batch vs) o i = StepRes.cont o2 i2) :
    o2 = some vs.length ∧ (∀ oc, o = some oc → oc = vs.length) ∧
      (∀ us, srcOf vs = some us → i2 = some us ∧ ∀ ic, i = some ic → ic = us) ∧
      (srcOf vs = none → i2 = i) := by
  obtain ⟨r, n, hr, hn, hf⟩ := isResolvedField_elim form a hres
  rw [checkField_resolved form a _ o i r n hr hn hf] at h
  rcases resolvedCheck_cont _ _ _ _ _ _ _ h with ⟨_, _, hne⟩ | ⟨vs2, hvs2, hb⟩
  · exact absurd rfl (hne vs)
  · cases hvs2
    exact batchCheck_cont _ _ _ _ _ _ hb

theorem checkField_fail_main (form : FormModel) (a : String) (l : Value) (o : Option Nat)
    (i : Option String) (r2 : String) (m : Option HighlightMsg)
    (h : checkField form a l o i = StepRes.fail r2 m) :
    isResolvedField form a = true ∧
      ((m = none ∧ isNull l = true ∧ resolvesRequired form a = true) ∨
        (∃ vs, l = Value.batch vs ∧
          ((m = some HighlightMsg.srcMismatch ∧
              ∃ us ic, srcOf vs = some us ∧ i = some ic ∧ ic ≠ us) ∨
            (∃ oc, o = some oc ∧ oc ≠ vs.length ∧
              m = some (HighlightMsg.countMismatch vs.length oc))))) := by
  cases hres : isResolvedField form a with
  | false =>
    rw [checkField_unresolved form a l o i hres] at h
    cases h
  | true =>
    obtain ⟨r, n, hr, hn, hf⟩ := isResolvedField_elim form a hres
    rw [checkField_resolved form a l o i r n hr hn hf] at h
    obtain ⟨h1, hcase⟩ := resolvedCheck_fail _ _ _ _ _ _ _ h
    rcases hcase with ⟨hm, hopt, hnull⟩ | ⟨vs, hvs, hb⟩
    · refine ⟨rfl, Or.inl ⟨hm, hnull, ?_⟩⟩
      simp [resolvesRequired, hr, hn, hf, hopt]
    · obtain ⟨_, hcase2⟩ := batchCheck_fail _ _ _ _ _ _ hb
      exact ⟨rfl, Or.inr ⟨vs, hvs, hcase2⟩⟩

theorem checkField_required_null (form : FormModel) (a : String) (o : Option Nat)
    (i : Option String) (hreq : resolvesRequired form a = true) :
    ∃ r, checkField form a Value.vnull o i = StepRes.fail r none := by
  unfold resolvesRequired at hreq
  cases hm : truthyStr (form.matchName a) with
  | none => rw [hm] at hreq; cases hreq
  | some r =>
    rw [hm] at hreq
    have hreq2 : (match form.input_list r with
        | none => false
        | some n => form.field_list r && !n.optional) = true := hreq
    cases hn : form.input_list r with
    | none => rw [hn] at hreq2; cases hreq2
    | some n =>
      rw [hn] at hreq2
      have hreq3 : (form.field_list r && !n.optional) = true := hreq2
      simp at hreq3
      refine ⟨r, ?_⟩
      rw [checkField_resolved form a _ o i r n hm hn hreq3.1]
      simp [resolvedCheck, hreq3.2, isNull]

theorem validateAux_ok_no_required_null (form : FormModel) :
    ∀ (inputs : List (String × Value)) (o : Option Nat) (i : Option String),
      validateAux form inputs o i = ValidateResult.ok →
      ∀ a, (a, Value.vnull) ∈ inputs → resolvesRequired form a = false := by
  intro inputs
  induction inputs with
  | nil => intro o i _ a ha; simp at ha
  | cons hd rest ih =>
    obtain ⟨b, l⟩ := hd
    intro o i h a ha
    have hstep : (match checkField form b l o i with
        | StepRes.fail r m => ValidateResult.fail r m
        | StepRes.cont o2 i2 => validateAux form rest o2 i2) = ValidateResult.ok := h
    cases hc : checkField form b l o i with
    | fail r m => rw [hc] at hstep; cases hstep
    | cont o2 i2 =>
      rw [hc] at hstep
      rcases List.mem_cons.mp ha with heq | hmem
      · injection heq with e1 e2
        subst e1
        subst e2
        cases hreqb : resolvesRequired form a with
        | false => rfl
        | true =>
          obtain ⟨r, hf⟩ := checkField_required_null form a o i hreqb
          rw [hf] at hc
          cases hc
      · exact ih o2 i2 hstep a hmem

theorem validateAux_ok_count (form : FormModel) :
    ∀ (inputs : List (String × Value)) (o : Option Nat) (i : Option String),
      validateAux form inputs o i = ValidateResult.ok →
      ∀ a va, (a, Value.batch va) ∈ inputs → isResolvedField form a = true →
        (∀ oc, o = some oc → va.length = oc) ∧
        (∀ b vb, (b, Value.batch vb) ∈ inputs → isResolvedField form b = true →
          va.length = vb.length) := by
  intro inputs
  induction inputs with
  | nil => intro o i _ a va ha; simp at ha
  | cons hd rest ih =>
    obtain ⟨c, l⟩ := hd
    intro o i h a va ha hra
    have hstep : (match checkField form c l o i with
        | StepRes.fail r m => ValidateResult.fail r m
        | StepRes.cont o2 i2 => validateAux form rest o2 i2) = ValidateResult.ok := h
    cases hc : checkField form c l o i with
    | fail r m => rw [hc] at hstep; cases hstep
    | cont o2 i2 =>
      rw [hc] at hstep
      rcases List.mem_cons.mp ha with heq | hmem
      · injection heq with e1 e2
        subst e1
        subst e2
        obtain ⟨ho2, hoc, _, _⟩ := checkField_cont_batch form a va o i o2 i2 hra hc
        constructor
        · intro oc hoc2
          exact (hoc oc hoc2).symm
        · intro b vb hb hrb
          rcases List.mem_cons.mp hb with heqb | hmemb
          · injection heqb with f1 f2
            injection f2 with f3
            rw [f3]
          · have hrest := ih o2 i2 hstep b vb hmemb hrb
            exact (hrest.1 va.length ho2).symm
      · have iha := ih o2 i2 hstep a va hmem hra
        have part1 : ∀ oc, o = some oc → va.length = oc := by
          intro oc hoeq
          rcases checkField_cont_main form c l o i o2 i2 hc with ⟨eo, _⟩ |
            ⟨_, vs, _, ho2, hoc, _, _⟩
          · exact iha.1 oc (by rw [eo, hoeq])
          · have h1 := iha.1 vs.length ho2
            rw [h1]
            exact (hoc oc hoeq).symm
        refine ⟨part1, ?_⟩
        intro b vb hb hrb
        rcases List.mem_cons.mp hb with heqb | hmemb
        · injection heqb with f1 f2
          subst f1
          subst f2
          obtain ⟨ho2, _, _, _⟩ := checkField_cont_batch form b vb o i o2 i2 hrb hc
          exact iha.1 vb.length ho2
        · exact iha.2 b vb hmemb hrb

theorem validateAux_no_countMsg (form : FormModel) (k : Nat) :
    ∀ (inputs : List (String × Value)) (o : Option Nat) (i : Option String),
      (∀ p ∈ inputs, ∀ vs, isResolvedField form p.1 = true → p.2 = Value.batch vs →
        vs.length = k) →
      (o = none ∨ o = some k) →
      ∀ r d oc, validateAux form inputs o i ≠
        ValidateResult.fail r (some (HighlightMsg.countMismatch d oc)) := by
  intro inputs
  induction inputs with
  | nil => intro o i _ _ r d oc h; simp [validateAux] at h
  | cons hd rest ih =>
    obtain ⟨c, l⟩ := hd
    intro o i hall ho r d oc h
    have hstep : (match checkField form c l o i with
        | StepRes.fail r2 m => ValidateResult.fail r2 m
        | StepRes.cont o2 i2 => validateAux form rest o2 i2) =
          ValidateResult.fail r (some (HighlightMsg.countMismatch d oc)) := h
    cases hc : checkField form c l o i with
    | fail r2 m =>
      rw [hc] at hstep
      injection hstep with e1 e2
      subst e1
      subst e2
      obtain ⟨hres, hcase⟩ := checkField_fail_main form c l o i r2
        (some (HighlightMsg.countMismatch d oc)) hc
      rcases hcase with ⟨hm, _, _⟩ | ⟨vs, hl, hinner⟩
      · cases hm
      · rcases hinner with ⟨hm, _⟩ | ⟨oc2, hoeq, hne, hm⟩
        · simp at hm
        · have hk := hall (c, l) (List.mem_cons_self _ _) vs hres hl
          rcases ho with ho | ho
          · rw [ho] at hoeq; cases hoeq
          · rw [ho] at hoeq
            injection hoeq with e3
            exact hne (by rw [← e3, hk])
    | cont o2 i2 =>
      rw [hc] at hstep
      have hall2 : ∀ p ∈ rest, ∀ vs, isResolvedField form p.1 = true →
          p.2 = Value.batch vs → vs.length = k :=
        fun p hp => hall p (List.mem_cons_of_mem _ hp)
      have ho2 : o2 = none ∨ o2 = some k := by
        rcases checkField_cont_main form c l o i o2 i2 hc with ⟨eo, _⟩ |
          ⟨hres, vs, hl, ho2b, _, _, _⟩
        · rw [eo]; exact ho
        · right
          rw [ho2b, hall (c, l) (List.mem_cons_self _ _) vs hres hl]
      exact ih o2 i2 hall2 ho2 r d oc hstep

theorem validateAux_ok_src (form : FormModel) :
    ∀ (inputs : List (String × Value)) (o : Option Nat) (i : Option String),
      validateAux form inputs o i = ValidateResult.ok →
      ∀ a va sa, (a, Value.batch va) ∈ inputs → isResolvedField form a = true →
        srcOf va = some sa →
        (∀ ic, i = some ic → sa = ic) ∧
        (∀ b vb sb, (b, Value.batch vb) ∈ inputs → isResolvedField form b = true →
          srcOf vb = some sb → sa = sb) := by
  intro inputs
  induction inputs with
  | nil => intro o i _ a va sa ha; simp at ha
  | cons hd rest ih =>
    obtain ⟨c, l⟩ := hd
    intro o i h a va sa ha hra hsa
    have hstep : (match checkField form c l o i with
        | StepRes.fail r m => ValidateResult.fail r m
        | StepRes.cont o2 i2 => validateAux form rest o2 i2) = ValidateResult.ok := h
    cases hc : checkField form c l o i with
    | fail r m => rw [hc] at hstep; cases hstep
    | cont o2 i2 =>
      rw [hc] at hstep
      rcases List.mem_cons.mp ha with heq | hmem
      · injection heq with e1 e2
        subst e1
        subst e2
        obtain ⟨_, _, hsrc, _⟩ := checkField_cont_batch form a va o i o2 i2 hra hc
        obtain ⟨hi2, hprev⟩ := hsrc sa hsa
        constructor
        · intro ic hic
          exact (hprev ic hic).symm
        · intro b vb sb hb hrb hsb
          rcases List.mem_cons.mp hb with heqb | hmemb
          · injection heqb with f1 f2
            injection f2 with f3
            rw [f3] at hsb
            have e := hsa.symm.trans hsb
            injection e
          · have hrest := ih o2 i2 hstep b vb sb hmemb hrb hsb
            exact (hrest.1 sa hi2).symm
      · have iha := ih o2 i2 hstep a va sa hmem hra hsa
        have part1 : ∀ ic, i = some ic → sa = ic := by
          intro ic hic
          rcases checkField_cont_main form c l o i o2 i2 hc with ⟨_, ei⟩ |
            ⟨_, vs, _, _, _, hsrc2, hnone⟩
          · exact iha.1 ic (by rw [ei, hic])
          · cases hsv : srcOf vs with
            | none => exact iha.1 ic (by rw [hnone hsv, hic])
            | some us =>
              obtain ⟨hi2, hprev⟩ := hsrc2 us hsv
              have h1 := iha.1 us hi2
              rw [h1]
              exact (hprev ic hic).symm
        refine ⟨part1, ?_⟩
        intro b vb sb hb hrb hsb
        rcases List.mem_cons.mp hb with heqb | hmemb
        · injection heqb with f1 f2
          subst f1
          subst f2
          obtain ⟨_, _, hsrc2, _⟩ := checkField_cont_batch form b vb o i o2 i2 hrb hc
          obtain ⟨hi2, _⟩ := hsrc2 sb hsb
          exact iha.1 sb hi2
        · exact iha.2 b vb sb hmemb hrb hsb

theorem validateAux_no_srcMsg (form : FormModel) (k : String) :
    ∀ (inputs : List (String × Value)) (o : Option Nat) (i : Option String),
      (∀ p ∈ inputs, ∀ vs s, isResolvedField form p.1 = true → p.2 = Value.batch vs →
        srcOf vs = some s → s = k) →
      (i = none ∨ i = some k) →
      ∀ r, validateAux form inputs o i ≠
        ValidateResult.fail r (some HighlightMsg.srcMismatch) := by
  intro inputs
  induction inputs with
  | nil => intro o i _ _ r h; simp [validateAux] at h
  | cons hd rest ih =>
    obtain ⟨c, l⟩ := hd
    intro o i hall hi r h
    have hstep : (match checkField form c l o i with
        | StepRes.fail r2 m => ValidateResult.fail r2 m
        | StepRes.cont o2 i2 => validateAux form rest o2 i2) =
          ValidateResult.fail r (some HighlightMsg.srcMismatch) := h
    cases hc : checkField form c l o i with
    | fail r2 m =>
      rw [hc] at hstep
      injection hstep with e1 e2
      subst e1
      subst e2
      obtain ⟨hres, hcase⟩ := checkField_fail_main form c l o i r2
        (some HighlightMsg.srcMismatch) hc
      rcases hcase with ⟨hm, _, _⟩ | ⟨vs, hl, hinner⟩
      · cases hm
      · rcases hinner with ⟨_, us, ic, hsv, hieq, hneq⟩ | ⟨oc2, _, _, hm⟩
        · have husk := hall (c, l) (List.mem_cons_self _ _) vs us hres hl hsv
          rcases hi with hi | hi
          · rw [hi] at hieq; cases hieq
          · rw [hi] at hieq
            injection hieq with e3
            exact hneq (e3.symm.trans husk.symm)
        · simp at hm
    | cont o2 i2 =>
      rw [hc] at hstep
      have hall2 : ∀ p ∈ rest, ∀ vs s, isResolvedField form p.1 = true →
          p.2 = Value.batch vs → srcOf vs = some s → s = k :=
        fun p hp => hall p (List.mem_cons_of_mem _ hp)
      have hi2 : i2 = none ∨ i2 = some k := by
        rcases checkField_cont_main form c l o i o2 i2 hc with ⟨_, ei⟩ |
          ⟨hres, vs, hl, _, _, hsrc2, hnone⟩
        · rw [ei]; exact hi
        · cases hsv : srcOf vs with
          | none => rw [hnone hsv]; exact hi
          | some us =>
            obtain ⟨hie, _⟩ := hsrc2 us hsv
            right
            rw [hie, hall (c, l) (List.mem_cons_self _ _) vs us hres hl hsv]
      exact ih o2 i2 hall2 hi2 r hstep

/-- C1 counterexample: in exReqA the field c resolves to a required input and
carries a null value, yet validate highlights the earlier batch field b (whose
count check fails first), not c.  So the claim that the missing required field
itself is highlighted is false, although validate does return false. -/
theorem C1_counterexample :
    resolvesRequired exForm "c" = true ∧
    ("c", Value.vnull) ∈ exReqA.inputs ∧
    validate exForm exReqA =
      ValidateResult.fail "b" (some (HighlightMsg.countMismatch 2 1)) ∧
    "b" ≠ "c" := by decide

/-- C1 (amended): if a submission request contains a field that the form
resolves to a known input object marked non-optional and its value is null,
then validate returns false and highlights a field, namely the first field
failing a check (which is the required field itself only when no earlier field
fails); consequently validate returns true only when no such required field
is missing. -/
theorem C1_required_null_rejected (form : FormModel) (e : SubmitRequest) (a : String)
    (hmem : (a, Value.vnull) ∈ e.inputs) (hreq : resolvesRequired form a = true) :
    ∃ r m, validate form e = ValidateResult.fail r m := by
  cases hv : validate form e with
  | ok =>
    have hfalse := validateAux_ok_no_required_null form e.inputs none none hv a hmem
    rw [hfalse] at hreq
    cases hreq
  | fail r m => exact ⟨r, m, rfl⟩

/-- C1 witness: exReqD has the single required null field c and validate
rejects it. -/
theorem C1_required_null_rejected_witness :
    ∃ r m, validate exForm exReqD = ValidateResult.fail r m :=
  C1_required_null_rejected exForm exReqD "c" (by decide) (by decide)

/-- C2 counterexample: in exReqB the two batch fields have selection counts 1
and 2, and validate does reject, but the field is highlighted with the
source-kind message (the src comparison of field b runs before its count
comparison), not with a message stating both counts. -/
theorem C2_counterexample :
    ("a", Value.batch [hdaItem]) ∈ exReqB.inputs ∧
    ("b", Value.batch [hdcaItem, hdcaItem]) ∈ exReqB.inputs ∧
    isResolvedField exForm "a" = true ∧
    isResolvedField exForm "b" = true ∧
    ([hdaItem] : List (Option BatchItem)).length ≠
      ([hdcaItem, hdcaItem] : List (Option BatchItem)).length ∧
    validate exForm exReqB = ValidateResult.fail "b" (some HighlightMsg.srcMismatch) ∧
    isCountMsg HighlightMsg.srcMismatch = false := by decide

/-- C2 (amended): if two resolved batch-mode fields of a submission request
have different selection counts then validate returns false; the highlighted
field carries the message stating both counts only when the count check is the
first check to fail (the counterexample shows the source-kind message can win);
and when all resolved batch-mode fields share the same selection count,
validate never fails with the count-mismatch message, so the count check
passes. -/
theorem C2_batch_count_consistency (form : FormModel) (e : SubmitRequest)
    (a b : String) (va vb : List (Option BatchItem))
    (ha : (a, Value.batch va) ∈ e.inputs) (hb : (b, Value.batch vb) ∈ e.inputs)
    (hra : isResolvedField form a = true) (hrb : isResolvedField form b = true) :
    (va.length ≠ vb.length → ∃ r m, validate form e = ValidateResult.fail r m) ∧
    ((∀ p ∈ e.inputs, ∀ vs, isResolvedField form p.1 = true →
        p.2 = Value.batch vs → vs.length = va.length) →
      ∀ r d oc, validate form e ≠
        ValidateResult.fail r (some (HighlightMsg.countMismatch d oc))) := by
  constructor
  · intro hne
    cases hv : validate form e with
    | ok =>
      have heq := (validateAux_ok_count form e.inputs none none hv a va ha hra).2
        b vb hb hrb
      exact absurd heq hne
    | fail r m => exact ⟨r, m, rfl⟩
  · intro hall r d oc
    exact validateAux_no_countMsg form va.length e.inputs none none hall
      (Or.inl rfl) r d oc

/-- C2 witness: in exReqE the two resolved batch fields have counts 1 and 2
and validate rejects the request. -/
theorem C2_batch_count_consistency_witness :
    ∃ r m, validate exForm exReqE = ValidateResult.fail r m :=
  (C2_batch_count_consistency exForm exReqE "a" "b" [hdaItem] [hdaItem, hdaItem]
    (by decide) (by decide) (by decide) (by decide)).1 (by decide)

/-- C3 counterexample: in exReqC the batch fields a and c have different src
kinds (hda versus hdca), and validate does reject, but the failure reported is
the count mismatch of field b, which fires before field c is reached; the
message is not the dataset or dataset list message and the highlighted field
is neither of the two src-mismatching fields. -/
theorem C3_counterexample :
    srcOf [hdaItem] = some "hda" ∧
    srcOf [hdcaItem] = some "hdca" ∧
    ("a", Value.batch [hdaItem]) ∈ exReqC.inputs ∧
    ("c", Value.batch [hdcaItem]) ∈ exReqC.inputs ∧
    validate exForm exReqC =
      ValidateResult.fail "b" (some (HighlightMsg.countMismatch 2 1)) ∧
    isSrcMsg (HighlightMsg.countMismatch 2 1) = false := by decide

/-- C3 (amended): if two resolved batch-mode fields of a submission request
have different truthy input-source kinds then validate returns false; the
dataset or dataset-list message is reported only when the source-kind check is
the first check to fail (the counterexample shows an earlier count mismatch
can win); and when all resolved batch-mode fields with a truthy source share
the same kind, validate never fails with the source-kind message. -/
theorem C3_batch_src_consistency (form : FormModel) (e : SubmitRequest)
    (a b : String) (va vb : List (Option BatchItem)) (sa sb : String)
    (ha : (a, Value.batch va) ∈ e.inputs) (hb : (b, Value.batch vb) ∈ e.inputs)
    (hra : isResolvedField form a = true) (hrb : isResolvedField form b = true)
    (hsa : srcOf va = some sa) (hsb : srcOf vb = some sb) :
    (sa ≠ sb → ∃ r m, validate form e = ValidateResult.fail r m) ∧
    ((∀ p ∈ e.inputs, ∀ vs s, isResolvedField form p.1 = true →
        p.2 = Value.batch vs → srcOf vs = some s → s = sa) →
      ∀ r, validate form e ≠
        ValidateResult.fail r (some HighlightMsg.srcMismatch)) := by
  constructor
  · intro hne
    cases hv : validate form e with
    | ok =>
      have heq := (validateAux_ok_src form e.inputs none none hv a va sa
        ha hra hsa).2 b vb sb hb hrb hsb
      exact absurd heq hne
    | fail r m => exact ⟨r, m, rfl⟩
  · intro hall r
    exact validateAux_no_srcMsg form sa e.inputs none none hall (Or.inl rfl) r

/-- C3 witness: in exReqF the two resolved batch fields carry src kinds hda
and hdca and validate rejects the request. -/
theorem C3_batch_src_consistency_witness :
    ∃ r m, validate exForm exReqF = ValidateResult.fail r m :=
  (C3_batch_src_consistency exForm exReqF "a" "b" [hdaItem] [hdcaItem]
    "hda" "hdca" (by decide) (by decide) (by decide) (by decide) (by decide)
    (by decide)).1 (by decide)

/-- C4: for every errorModal call with a non-empty message, when the global
modal host is available the error is shown as a modal dialog whose body is the
localized message and whose Details section holds exactly the supplied details
(present if and only if details were supplied); otherwise a browser alert is
shown containing the effective title and the message. -/
theorem C4_errorModal_display (avail : Bool) (msg ttl : String)
    (details : Option ErrorDetails) (h : msg ≠ "") :
    (avail = true → errorModal avail msg ttl details =
      ErrorDisplay.modalShown
        { title := if localize ttl = "" then localize "Error:" else localize ttl
          body := localize msg
          errorDetails := details }) ∧
    (avail = false → errorModal avail msg ttl details =
      ErrorDisplay.alertShown
        ((if localize ttl = "" then localize "Error:" else localize ttl)
          ++ "\n\n" ++ localize msg) details) := by
  constructor <;> intro ha <;> subst ha <;> simp [errorModal, showErrorModal, h]

/-- C4 witness: a concrete modal display and a concrete alert fallback. -/
theorem C4_errorModal_display_witness :
    errorModal true "boom" "Oops" (some (ErrorDetails.raw JsVal.vnull)) =
      ErrorDisplay.modalShown ⟨"Oops", "boom", some (ErrorDetails.raw JsVal.vnull)⟩ ∧
    errorModal false "boom" "" none =
      ErrorDisplay.alertShown ("Error:" ++ "\n\n" ++ "boom") none :=
  ⟨(C4_errorModal_display true "boom" "Oops" (some (ErrorDetails.raw JsVal.vnull))
      (by decide)).1 rfl,
   (C4_errorModal_display false "boom" "" none (by decide)).2 rfl⟩

/-- C9: for every errorModal call whose message is falsy (the empty string in
this embedding, covering the null, undefined and empty cases of the source),
nothing observable happens, whether or not a modal host is available. -/
theorem C9_errorModal_falsy_noop (avail : Bool) (ttl : String)
    (details : Option ErrorDetails) :
    errorModal avail "" ttl details = ErrorDisplay.noDisplay := by
  simp [errorModal]

/-- C10: in every telemetry payload assembled for ajaxErrorModal, the user
record contains no email property, the included xhr contains no
function-valued property, and any xhr property whose name is not among the
function-valued names is retained. -/
theorem C10_telemetry_omissions (env : GalaxyEnv) (mdl : JsVal)
    (xhr options : List (String × JsVal)) (p q w : String × JsVal)
    (hp : p ∈ (ajaxDetails env mdl xhr options).user)
    (hq : q ∈ (ajaxDetails env mdl xhr options).xhr)
    (hw : w ∈ xhr) (hwf : (functionKeys xhr).contains w.1 = false) :
    p.1 ≠ "email" ∧ isFunctionVal q.2 = false ∧
      w ∈ (ajaxDetails env mdl xhr options).xhr := by
  refine ⟨?_, ?_, ?_⟩
  · have hp2 := List.mem_filter.mp hp
    simpa using hp2.2
  · have hq2 := List.mem_filter.mp hq
    by_contra hfun
    simp at hfun
    have hkey : q.1 ∈ functionKeys xhr :=
      List.mem_map.mpr ⟨q, List.mem_filter.mpr ⟨hq2.1, hfun⟩, rfl⟩
    have hcontains := hq2.2
    simp at hcontains
    exact hcontains hkey
  · refine List.mem_filter.mpr ⟨hw, ?_⟩
    rw [hwf]
    rfl

/-- C10 witness: for a concrete environment with an email property and a
function-valued xhr property, the surviving entries satisfy the three
guarantees. -/
theorem C10_telemetry_omissions_witness :
    (("id", JsVal.vnum 7) : String × JsVal).1 ≠ "email" ∧
    isFunctionVal (("status", JsVal.vnum 200) : String × JsVal).2 = false ∧
    ("status", JsVal.vnum 200) ∈ (ajaxDetails exEnv JsVal.vnull exXhr exOptions).xhr :=
  C10_telemetry_omissions exEnv JsVal.vnull exXhr exOptions
    ("id", JsVal.vnum 7) ("status", JsVal.vnum 200) ("status", JsVal.vnum 200)
    (by decide) (by decide) (by decide) (by decide)

theorem setParam_mem_self (l : List (String × String)) (k v : String) :
    (k, v) ∈ setParam l k v := by
  induction l with
  | nil => simp [setParam]
  | cons hd rest ih =>
    obtain ⟨k2, v2⟩ := hd
    by_cases hk : k2 = k
    · simp [setParam, hk]
    · simp only [setParam, if_neg hk]
      exact List.mem_cons_of_mem _ ih

theorem mem_setParam_of_ne (l : List (String × String)) (k v k2 w : String)
    (hne : k2 ≠ k) : (k2, w) ∈ setParam l k v ↔ (k2, w) ∈ l := by
  induction l with
  | nil => simp [setParam, hne]
  | cons hd rest ih =>
    obtain ⟨k3, v3⟩ := hd
    by_cases hk : k3 = k
    · subst hk
      simp [setParam, List.mem_cons, hne]
    · simp only [setParam, if_neg hk, List.mem_cons]
      rw [ih]

theorem mem_deleteParam (ps : List (String × String)) (k2 k w : String) :
    (k, w) ∈ deleteParam ps k2 ↔ (k, w) ∈ ps ∧ k ≠ k2 := by
  simp [deleteParam, List.mem_filter]

/-- C5: for every failed job submission, when the response carries err_data
and matchResponse yields at least one matched field, the handler highlights
the first matched field and shows no modal of any kind; when no field is
matched (err_data absent or matchResponse empty), it shows the Job submission
failed modal whose body carries the dump of the submitted request. -/
theorem C5_submit_error_routing (hasCallback : Bool) (req : SubmitRequest)
    (matchResponse : List (String × JsVal) → List (String × JsVal))
    (e : ErrResponse) :
    (∀ ed r v rest2, e.err_data = some ed → matchResponse ed = (r, v) :: rest2 →
      Effect.highlightResponse r v ∈
        submitErrorHandler hasCallback req matchResponse (some e) ∧
      (submitErrorHandler hasCallback req matchResponse (some e)).all
        (fun x => !effectIsModal x) = true) ∧
    (∀ ed, e.err_data = some ed → matchResponse ed = [] →
      Effect.showModal "Job submission failed" (templateError req e.err_msg) ∈
        submitErrorHandler hasCallback req matchResponse (some e)) ∧
    (e.err_data = none →
      Effect.showModal "Job submission failed" (templateError req e.err_msg) ∈
        submitErrorHandler hasCallback req matchResponse (some e)) := by
  refine ⟨?_, ?_, ?_⟩
  · intro ed r v rest2 hed hm
    constructor
    · cases hasCallback <;>
        simp [submitErrorHandler, hed, hm]
    · cases hasCallback <;>
        simp [submitErrorHandler, hed, hm, effectIsModal]
  · intro ed hed hm
    cases hasCallback <;>
      simp [submitErrorHandler, hed, hm]
  · intro hed
    cases hasCallback <;>
      simp [submitErrorHandler, hed]

/-- C5 witness: a matched field is highlighted in one concrete run, and a
concrete run without err_data shows the modal carrying the request dump. -/
theorem C5_submit_error_routing_witness :
    (Effect.highlightResponse "f1" (JsVal.vstr "bad value") ∈
        submitErrorHandler true exReqD exMatchResp (some exErr) ∧
      (submitErrorHandler true exReqD exMatchResp (some exErr)).all
        (fun x => !effectIsModal x) = true) ∧
    Effect.showModal "Job submission failed" (templateError exReqD none) ∈
      submitErrorHandler true exReqD exMatchResp (some exErrNoData) :=
  ⟨(C5_submit_error_routing true exReqD exMatchResp exErr).1 exErrData "f1"
      (JsVal.vstr "bad value") [] rfl rfl,
   (C5_submit_error_routing true exReqD exMatchResp exErrNoData).2.2 rfl⟩

/-- C6: no error callback of the four views issues a request: the buildmodel,
postchange and submit error handlers of tool-form, the (absent) toolshed
request error handlers, and the ajaxErrorModal path of error-modal only
surface the error through redirect, inline message, modal, alert, highlight
or debug log, and never perform an AJAX call or a form submission. -/
theorem C6_error_handlers_no_retry (root toolId : String) (respErrMsg : Option String)
    (status : Nat) (elEmpty modalAvail hasCallback : Bool) (req : SubmitRequest)
    (matchResponse : List (String × JsVal) → List (String × JsVal))
    (resp : Option ErrResponse) (avail : Bool) (env : GalaxyEnv) (mdl : JsVal)
    (xhr options : List (String × JsVal)) (message title : Option String) :
    noRequestEffects (buildModelErrorHandler root toolId respErrMsg status
      elEmpty modalAvail) = true ∧
    noRequestEffects postchangeErrorHandler = true ∧
    noRequestEffects (submitErrorHandler hasCallback req matchResponse resp) = true ∧
    noRequestEffects toolshedRequestErrorEffects = true ∧
    noRequestEffects (displayEffects
      (ajaxErrorModal avail env mdl xhr options message title)) = true := by
  refine ⟨?_, ?_, ?_, ?_, ?_⟩
  · unfold buildModelErrorHandler noRequestEffects
    split <;> [skip; split <;> [skip; split]] <;> simp [effectIsRequest]
  · simp [postchangeErrorHandler, noRequestEffects, effectIsRequest]
  · unfold submitErrorHandler noRequestEffects
    rcases resp with _ | e
    · cases hasCallback <;> simp [effectIsRequest]
    · rcases hed : e.err_data with _ | ed
      · cases hasCallback <;> simp [hed, effectIsRequest]
      · rcases hm : matchResponse ed with _ | ⟨⟨r, v⟩, rest2⟩ <;>
          cases hasCallback <;> simp [hed, hm, effectIsRequest]
  · simp [toolshedRequestErrorEffects, noRequestEffects]
  · cases hdisp : ajaxErrorModal avail env mdl xhr options message title <;>
      simp [displayEffects, noRequestEffects, effectIsRequest]

/-- C7 counterexample: with an empty-string job_id the attributes do contain a
job_id, yet the build endpoint is used (the source tests JavaScript
truthiness, not presence); and with an empty-string tool_id page parameter the
query data still contains tool_id (the delete is guarded by truthiness). -/
theorem C7_counterexample :
    (buildModelRequest "/" exAttrsJobEmpty [("tool_id", "")]).url =
      "/api/tools/cat1/build" ∧
    ("tool_id", "") ∈ (buildModelRequest "/" exAttrsJobEmpty [("tool_id", "")]).data := by
  decide

/-- C7 (amended): when the model attributes carry a truthy (non-empty) job_id
the tool definition is fetched from the rerun endpoint; otherwise from the
build endpoint with the page parameters as query data, from which tool_id is
removed when truthy, every other parameter (not named tool_version) is kept,
and tool_version is added when the model has a truthy version. -/
theorem C7_build_endpoint_selection (root : String) (attrs : ToolAttrs)
    (params : List (String × String)) :
    (∀ j, attrs.job_id = some j → j ≠ "" →
      (buildModelRequest root attrs params).url =
        root ++ "api/jobs/" ++ j ++ "/build_for_rerun") ∧
    (truthyStr attrs.job_id = none →
      (buildModelRequest root attrs params).url =
        root ++ "api/tools/" ++ attrs.id ++ "/build" ∧
      (∀ v0, truthyStr (lookupParam params "tool_id") = some v0 →
        ∀ w, ("tool_id", w) ∉ (buildModelRequest root attrs params).data) ∧
      (∀ k w, (k, w) ∈ params → k ≠ "tool_id" → k ≠ "tool_version" →
        (k, w) ∈ (buildModelRequest root attrs params).data) ∧
      (∀ v, attrs.version = some v → v ≠ "" →
        ("tool_version", v) ∈ (buildModelRequest root attrs params).data)) := by
  constructor
  · intro j hj hne
    have hjt : truthyStr attrs.job_id = some j := by simp [truthyStr, hj, hne]
    simp [buildModelRequest, buildModelUrl, hjt]
  · intro hjn
    refine ⟨by simp [buildModelRequest, buildModelUrl, hjn], ?_, ?_, ?_⟩
    · intro v0 hl w hmem
      simp only [buildModelRequest, buildModelData, hjn, hl] at hmem
      rcases hv : truthyStr attrs.version with _ | v <;> rw [hv] at hmem
      · rw [mem_deleteParam] at hmem
        exact hmem.2 rfl
      · rw [mem_setParam_of_ne _ _ _ _ _ (by decide)] at hmem
        rw [mem_deleteParam] at hmem
        exact hmem.2 rfl
    · intro k w hmem hk1 hk2
      simp only [buildModelRequest, buildModelData, hjn]
      rcases hl : truthyStr (lookupParam params "tool_id") with _ | v0 <;>
        rcases hv : truthyStr attrs.version with _ | v
      · exact hmem
      · rw [mem_setParam_of_ne _ _ _ _ _ hk2]
        exact hmem
      · rw [mem_deleteParam]
        exact ⟨hmem, hk1⟩
      · rw [mem_setParam_of_ne _ _ _ _ _ hk2, mem_deleteParam]
        exact ⟨hmem, hk1⟩
    · intro v hv0 hvne
      have hvt : truthyStr attrs.version = some v := by simp [truthyStr, hv0, hvne]
      simp only [buildModelRequest, buildModelData, hjn, hvt]
      rcases hl : truthyStr (lookupParam params "tool_id") with _ | v0
      · exact setParam_mem_self _ _ _
      · exact setParam_mem_self _ _ _

/-- C7 witness: a concrete rerun fetch, and a concrete build fetch keeping an
ordinary parameter, dropping tool_id and adding tool_version. -/
theorem C7_build_endpoint_selection_witness :
    (buildModelRequest "/" exAttrsRerun [("a", "x")]).url =
      "/" ++ "api/jobs/" ++ "j7" ++ "/build_for_rerun" ∧
    (buildModelRequest "/" exAttrsBuild [("a", "x"), ("tool_id", "5")]).url =
      "/" ++ "api/tools/" ++ "cat1" ++ "/build" ∧
    ("a", "x") ∈ (buildModelRequest "/" exAttrsBuild [("a", "x"), ("tool_id", "5")]).data ∧
    (("tool_id", "5") ∉
      (buildModelRequest "/" exAttrsBuild [("a", "x"), ("tool_id", "5")]).data) ∧
    ("tool_version", "1.0") ∈
      (buildModelRequest "/" exAttrsBuild [("a", "x"), ("tool_id", "5")]).data :=
  ⟨(C7_build_endpoint_selection "/" exAttrsRerun [("a", "x")]).1 "j7" rfl (by decide),
   ((C7_build_endpoint_selection "/" exAttrsBuild
      [("a", "x"), ("tool_id", "5")]).2 (by decide)).1,
   ((C7_build_endpoint_selection "/" exAttrsBuild
      [("a", "x"), ("tool_id", "5")]).2 (by decide)).2.2.1 "a" "x" (by decide)
      (by decide) (by decide),
   ((C7_build_endpoint_selection "/" exAttrsBuild
      [("a", "x"), ("tool_id", "5")]).2 (by decide)).2.1 "5" (by decide) "5",
   ((C7_build_endpoint_selection "/" exAttrsBuild
      [("a", "x"), ("tool_id", "5")]).2 (by decide)).2.2.2 "1.0" rfl (by decide)⟩

/-- C8: whenever validate rejects the assembled request, submit issues no
network request and no form-element submission (leaving the job-submission
state untouched) and still invokes the completion callback when one was
supplied, so the user can re-submit manually. -/
theorem C8_invalid_submission (form : FormModel) (root : String) (attrs : ToolAttrs)
    (inputs : List (String × Value)) (hasCallback : Bool) (r : String)
    (m : Option HighlightMsg)
    (hv : validate form (submitRequestOf attrs inputs) = ValidateResult.fail r m) :
    noRequestEffects (submit form root attrs inputs hasCallback) = true ∧
    (hasCallback = true →
      Effect.callbackInvoked ∈ submit form root attrs inputs hasCallback) := by
  constructor
  · unfold submit noRequestEffects
    rw [hv]
    cases hasCallback <;> simp [effectIsRequest]
  · intro hcb
    subst hcb
    unfold submit
    rw [hv]
    simp

/-- C8 witness: a concrete invalid submission (required field null) performs
no request and invokes the callback. -/
theorem C8_invalid_submission_witness :
    noRequestEffects (submit exForm "/" exAttrsBuild [("c", Value.vnull)] true) = true ∧
    Effect.callbackInvoked ∈ submit exForm "/" exAttrsBuild [("c", Value.vnull)] true :=
  ⟨(C8_invalid_submission exForm "/" exAttrsBuild [("c", Value.vnull)] true "c" none
      (by decide)).1,
   (C8_invalid_submission exForm "/" exAttrsBuild [("c", Value.vnull)] true "c" none
      (by decide)).2 rfl⟩
